import Mathlib

/-!
Verification of the domaincheck domain-resolution engine.

This file gives a shallow embedding of the core of the `domaincheck`
repository: the normalizer (`internal/domain/normalize.go`), the DNS
pre-filter and resolution engine (`internal/checker`), the RDAP and WHOIS
probers, and the batch orchestration core of
`internal/server/handlers.go.CheckDomainsHandler`.

External effects (DNS lookups, HTTP exchanges, the spawned `whois`
process, context cancellation at the semaphore) are passed in as explicit
outcome parameters, so each Go function becomes a pure Lean function of
its inputs and of the observed outcomes of its effects.  Time-stamp
fields (`CheckedAt`, `Duration`) are omitted: no claim mentions them.
-/

namespace DomainCheck

/-! ## Data model (`internal/domain/types.go`) -/

/-- `Domain` mirrors the Go struct `domain.Domain`: the full normalized
name plus its parsed components. -/
structure Domain where
  Full : String
  Name : String
  TLD : String
deriving DecidableEq, Repr, Inhabited

/-- `Status` mirrors the Go `domain.Status` enumeration. -/
inductive Status where
  | unknown
  | available
  | taken
  | error
deriving DecidableEq, Repr, Inhabited

/-- `Result` mirrors the Go struct `domain.Result`, minus the two
time-stamp fields (`CheckedAt`, `Duration`), which no claim mentions. -/
structure Result where
  Domain : Domain
  Status : Status
  Available : Bool
  Error : String
  Source : String
deriving DecidableEq, Repr, Inhabited

/-- `CheckResponse` mirrors the Go struct `domain.CheckResponse`. -/
structure CheckResponse where
  Results : List Result
  Checked : Nat
  Available : Nat
  Taken : Nat
  Errors : Nat
deriving DecidableEq, Repr, Inhabited

/-! ## Normalizer (`internal/domain/normalize.go`) -/

/-- The two error values of the normalizer: `ErrEmptyDomain` and
`ErrInvalidFormat`. -/
inductive DomainError where
  | emptyDomain
  | invalidFormat
deriving DecidableEq, Repr

/-- Whitespace as trimmed by Go `strings.TrimSpace` (ASCII part). -/
def goSpace (c : Char) : Bool :=
  c == ' ' || c == '\t' || c == '\n' || c == '\x0b' || c == '\x0c' || c == '\r'

/-- `strings.TrimSpace`: drop whitespace from both ends. -/
def trimSpace (l : List Char) : List Char :=
  (((l.dropWhile goSpace).reverse).dropWhile goSpace).reverse

/-- `strings.ToLower` composed with `strings.TrimSpace`, as performed at
the top of `Normalize`. -/
def canon (s : String) : String :=
  ⟨(trimSpace s.data).map Char.toLower⟩

/-- `strings.Split(input, ".")` for the one-character separator `"."`:
splits into the (possibly empty) segments between dots.  Go's `Split`
never returns an empty slice; neither does this function. -/
def splitDot : List Char → List (List Char)
  | [] => [[]]
  | c :: cs =>
    if c = '.' then [] :: splitDot cs
    else
      match splitDot cs with
      | [] => [[c]]
      | p :: ps => (c :: p) :: ps

/-- `strings.HasSuffix(input, ".")`: the last character is a dot. -/
def endsWithDot (l : List Char) : Bool :=
  l.reverse.head? == some '.'

/-- The characters of the literal `".com"` appended when the input has
no dot. -/
def dotCom : List Char := ['.', 'c', 'o', 'm']

/-- Core of `domain.Normalize` after the trim + lowercase step,
mirroring `normalize.go` line by line: empty ⇒ `ErrEmptyDomain`;
append `.com` when no dot is present; reject a trailing dot; split on
dots; reject when fewer than two parts, or the TLD or name is empty. -/
def normalizeChars (t : List Char) : Domain × Option DomainError :=
  if t = [] then (⟨"", "", ""⟩, some .emptyDomain)
  else
    let u := if t.contains '.' then t else t ++ dotCom
    if endsWithDot u then (⟨"", "", ""⟩, some .invalidFormat)
    else
      let parts := splitDot u
      if parts.length < 2 then (⟨"", "", ""⟩, some .invalidFormat)
      else
        let tld := parts.getLastD []
        if tld = [] then (⟨"", "", ""⟩, some .invalidFormat)
        else
          let name := List.intercalate ['.'] parts.dropLast
          if name = [] then (⟨"", "", ""⟩, some .invalidFormat)
          else (⟨⟨u⟩, ⟨name⟩, ⟨tld⟩⟩, none)

/-- `domain.Normalize`, Go-style: on failure the first component is the
zero value `Domain{}` and the second carries the error. -/
def Normalize (input : String) : Domain × Option DomainError :=
  normalizeChars (canon input).data

/-- The structural invariant of `DomainIdentifier` as stated by the
specification (section 3): `full == label + "." + tld`, both components
non-empty, no leading/trailing/consecutive dots, only letters, digits,
hyphens and dots, and no leading hyphen. -/
def validDomainChar (c : Char) : Bool :=
  c.isAlpha || c.isDigit || c == '-' || c == '.'

/-- Contiguous-substring containment on character lists, the semantics
of Go `strings.Contains`. -/
def containsSub (sub : List Char) : List Char → Bool
  | [] => sub.isEmpty
  | c :: cs => sub.isPrefixOf (c :: cs) || containsSub sub cs

/-- Two consecutive dots occur somewhere in the name. -/
def hasDoubleDot (l : List Char) : Bool :=
  containsSub ['.', '.'] l

/-- The spec's `DomainIdentifier` invariant, as a decidable predicate. -/
def domainInvariant (d : Domain) : Bool :=
  (d.Full == d.Name ++ "." ++ d.TLD) &&
  !(d.Name == "") &&
  !(d.TLD == "") &&
  !(d.Full.data.head? == some '.') &&
  !(d.Full.data.reverse.head? == some '.') &&
  !(hasDoubleDot d.Full.data) &&
  d.Full.data.all validDomainChar &&
  !(d.Full.data.head? == some '-')

/-! ## DNS pre-filter (`internal/checker/dns.go`) -/

/-- A single lookup outcome: `.error` for a lookup error, `.ok n` for a
successful lookup returning `n` records. -/
def lookupHasRecords : Except Unit Nat → Bool
  | .ok n => decide (0 < n)
  | .error _ => false

/-- `checker.DNSFilter` as a function of the three lookup outcomes
(A/AAAA, MX, NS).  Returns `(likelyAvailable, shouldSkip, err)`; as in
the source, every path returns a nil error. -/
def DNSFilter (ips mx ns : Except Unit Nat) : Bool × Bool × Option Unit :=
  if lookupHasRecords ips then (false, true, none)
  else if lookupHasRecords mx then (false, true, none)
  else if lookupHasRecords ns then (false, true, none)
  else (true, false, none)

/-! ## RDAP prober (`internal/checker/rdap.go`) -/

/-- The hardcoded TLD → RDAP endpoint map `rdapServers`. -/
def rdapServers : List (String × String) :=
  [("com", "https://rdap.verisign.com/com/v1/domain/"),
   ("net", "https://rdap.verisign.com/net/v1/domain/"),
   ("org", "https://rdap.publicinterestregistry.org/rdap/domain/")]

/-- Map lookup `rdapServers[d.TLD]`. -/
def rdapLookup (tld : String) : Option String :=
  (rdapServers.find? (fun p => p.1 == tld)).map (fun p => p.2)

/-- The observable outcome of the HTTPS exchange in `RDAPCheck`:
transport failure, 404, 200 with a parsed `status` array (`none` for a
malformed JSON body), or any other status code. -/
inductive RdapHttp where
  | transportFail
  | notFound
  | okBody (statuses : Option (List String))
  | other (code : Nat)
deriving DecidableEq, Repr

/-- The error outcomes of `RDAPCheck`. -/
inductive RdapError where
  | unsupportedTLD (tld : String)
  | requestFailed
  | parseFailed
  | unexpectedStatus (code : Nat)
deriving DecidableEq, Repr

/-- `checker.RDAPCheck` as a function of the HTTP outcome: unsupported
TLD ⇒ error; 404 ⇒ available; 200 ⇒ available iff the status array is
empty, otherwise taken (the active/registered scan returns taken, and
the fall-through after it also returns taken); anything else ⇒ error. -/
def RDAPCheck (d : Domain) (resp : RdapHttp) : Except RdapError Bool :=
  match rdapLookup d.TLD with
  | none => .error (.unsupportedTLD d.TLD)
  | some _ =>
    match resp with
    | .transportFail => .error .requestFailed
    | .notFound => .ok true
    | .okBody none => .error .parseFailed
    | .okBody (some statuses) =>
      if statuses.length = 0 then .ok true
      else if statuses.any (fun st => st == "active" || st == "registered") then .ok false
      else .ok false
    | .other code => .error (.unexpectedStatus code)

/-! ## WHOIS prober (`internal/checker/whois.go`) -/

/-- The `availableIndicators` keyword list, verbatim from the source. -/
def availableIndicators : List String :=
  ["No match for domain",
   "No match for \"",
   "NOT FOUND",
   "No entries found",
   "no matching record",
   "Domain not found",
   "No Data Found",
   "Status: AVAILABLE",
   "Not found:"]

/-- The `takenIndicators` keyword list, verbatim from the source. -/
def takenIndicators : List String :=
  ["Registry Domain ID:",
   "Creation Date:",
   "Registrar:",
   "Domain Status:",
   "Name Server:",
   "Registrant Name:"]

/-- `strings.Contains(s, sub)`. -/
def containsStr (s sub : String) : Bool :=
  containsSub sub.data s.data

/-- The error reported by `cmd.CombinedOutput()`: a process exit status,
or a failure to run the command at all. -/
inductive CmdErr where
  | exitError (code : Int)
  | startFailure
deriving DecidableEq, Repr

/-- The error outcomes of `WHOISCheck`. -/
inductive WhoisError where
  | timeout
  | commandFailed
  | noOutput
deriving DecidableEq, Repr

/-- `checker.WHOISCheck` as a function of the combined process output,
the command error (if any), and whether the 10-second context deadline
was exceeded.  Mirrors the source order exactly: available indicators
first, then taken indicators, then error classification, then the
non-empty-output default, then the no-output error. -/
def WHOISCheck (output : String) (cmdErr : Option CmdErr) (deadlineExceeded : Bool) :
    Except WhoisError Bool :=
  if availableIndicators.any (fun ind => containsStr output ind) then .ok true
  else if takenIndicators.any (fun ind => containsStr output ind) then .ok false
  else
    match cmdErr with
    | some e =>
      if deadlineExceeded then .error .timeout
      else
        match e with
        | .exitError code =>
          if code = 1 ∧ output.data ≠ [] then .ok false
          else .error .commandFailed
        | .startFailure => .error .commandFailed
    | none =>
      if output.data ≠ [] then .ok false
      else .error .noOutput

/-- The message text attached to each WHOIS error by the source. -/
def whoisErrorMessage : WhoisError → String
  | .timeout => "whois timeout: context deadline exceeded"
  | .commandFailed => "whois command failed"
  | .noOutput => "whois returned no output"

/-! ## Resolution engine (`internal/checker/checker.go`) -/

/-- Stages 2 and 3 of `checker.Check`: RDAP, then the WHOIS fallback,
then the terminal error verdict. -/
def checkAfterDNS (d : Domain) (rdap : Except RdapError Bool)
    (whoisR : Except WhoisError Bool) : Result :=
  match rdap with
  | .ok true => ⟨d, .available, true, "", "rdap"⟩
  | .ok false => ⟨d, .taken, false, "", "rdap"⟩
  | .error _ =>
    match whoisR with
    | .ok true => ⟨d, .available, true, "", "whois"⟩
    | .ok false => ⟨d, .taken, false, "", "whois"⟩
    | .error e =>
      ⟨d, .error, false, "all checks failed, last error: " ++ whoisErrorMessage e, "whois"⟩

/-- `checker.Check` as a function of the DNS pre-filter result and of
the outcomes the two probers would produce if consulted.  As in the
source: a DNS-filter error falls through; a definitive DNS record
short-circuits to a taken verdict with source `"dns"`. -/
def Check (d : Domain) (dns : Bool × Bool × Option Unit)
    (rdap : Except RdapError Bool) (whoisR : Except WhoisError Bool) : Result :=
  if dns.2.2.isSome then checkAfterDNS d rdap whoisR
  else if dns.2.1 then ⟨d, .taken, false, "", "dns"⟩
  else checkAfterDNS d rdap whoisR

/-! ## Batch orchestration (`internal/server/handlers.go`) -/

/-- `maxDomainsPerRequest` from the source. -/
def maxDomainsPerRequest : Nat := 100

/-- Request-shape rejections of the batch handler. -/
inductive BatchError where
  | emptyBatch
  | tooManyDomains
deriving DecidableEq, Repr

/-- One worker goroutine of `CheckDomainsHandler`, as a function of the
raw input at its position, whether the shared context was observed
cancelled while it waited at the semaphore, and the resolution engine
(abstracted as `checkFn`).  Mirrors the source order: the cancellation
branch first, then the normalization-failure branch, then the engine. -/
def workUnit (raw : String) (cancelled : Bool) (checkFn : Domain → Result) : Result :=
  if cancelled then
    ⟨(Normalize raw).1, .error, false, "request cancelled", ""⟩
  else if (Normalize raw).2.isSome then
    ⟨⟨raw, "", ""⟩, .error, false, "invalid domain format", ""⟩
  else checkFn (Normalize raw).1

/-- The aggregation loop of the handler: returns
`(available, taken, errors)` counts; a verdict with a non-empty error
message counts as an error, otherwise it counts by its `Available`
flag. -/
def countVerdicts : List Result → Nat × Nat × Nat
  | [] => (0, 0, 0)
  | r :: rs =>
    let c := countVerdicts rs
    if r.Error ≠ "" then (c.1, c.2.1, c.2.2 + 1)
    else if r.Available then (c.1 + 1, c.2.1, c.2.2)
    else (c.1, c.2.1 + 1, c.2.2)

/-- The post-decode core of `server.CheckDomainsHandler`: request-shape
validation, one worker per input position (results written into a
pre-sized slice indexed by position), then aggregation.  `cancelled i`
records whether worker `i` observed context cancellation while waiting
for a semaphore slot. -/
def CheckDomainsHandler (inputs : List String) (cancelled : Nat → Bool)
    (checkFn : Domain → Result) : Except BatchError CheckResponse :=
  if inputs.length = 0 then .error .emptyBatch
  else if inputs.length > maxDomainsPerRequest then .error .tooManyDomains
  else
    let results := (List.range inputs.length).map
      (fun i => workUnit (inputs.getD i "") (cancelled i) checkFn)
    let c := countVerdicts results
    .ok ⟨results, results.length, c.1, c.2.1, c.2.2⟩

/-! ## Concrete fixtures used by witnesses -/

/-- A resolution engine that always answers taken via DNS (stands in for
`checker.Check` in concrete batch runs). -/
def dnsTakenFn : Domain → Result :=
  fun d => ⟨d, .taken, false, "", "dns"⟩

/-- A resolution engine that always answers available via RDAP. -/
def rdapAvailFn : Domain → Result :=
  fun d => ⟨d, .available, true, "", "rdap"⟩

/-- The response of the batch core on `["trucore", ""]` with no
cancellation and the always-taken engine. -/
def respC4 : CheckResponse :=
  ⟨[⟨⟨"trucore.com", "trucore", "com"⟩, .taken, false, "", "dns"⟩,
    ⟨⟨"", "", ""⟩, .error, false, "invalid domain format", ""⟩], 2, 0, 1, 1⟩

/-- The response of the batch core on `["example.com"]` when every
worker observes cancellation at the semaphore. -/
def respC8 : CheckResponse :=
  ⟨[⟨⟨"example.com", "example", "com"⟩, .error, false, "request cancelled", ""⟩], 1, 0, 0, 1⟩

/-- The response of the batch core on the single malformed input
`["example."]` with no cancellation. -/
def respC9 : CheckResponse :=
  ⟨[⟨⟨"example.", "", ""⟩, .error, false, "invalid domain format", ""⟩], 1, 0, 0, 1⟩

/-! ## Helper lemmas -/

/-- `splitDot` never returns an empty list of parts, like Go
`strings.Split`. -/
theorem splitDot_ne_nil (l : List Char) : splitDot l ≠ [] := by
  cases l with
  | nil => simp [splitDot]
  | cons c cs =>
    simp only [splitDot]
    split
    · simp
    · split <;> simp

/-- Splitting a dot-free prefix followed by a dot peels off that prefix
as the first part. -/
theorem splitDot_append_dot (l r : List Char) (h : '.' ∉ l) :
    splitDot (l ++ '.' :: r) = l :: splitDot r := by
  induction l with
  | nil => simp [splitDot]
  | cons c cs ih =>
    have hc : ¬(c = '.') := fun hc => h (by simp [hc])
    have hcs : '.' ∉ cs := fun hm => h (List.mem_cons_of_mem _ hm)
    rw [List.cons_append]
    simp only [splitDot, if_neg hc, ih hcs]

/-- The three counters of the aggregation loop sum to the number of
verdicts. -/
theorem countVerdicts_sum (rs : List Result) :
    (countVerdicts rs).1 + (countVerdicts rs).2.1 + (countVerdicts rs).2.2 = rs.length := by
  induction rs with
  | nil => rfl
  | cons r rs ih =>
    simp only [countVerdicts]
    split
    · simpa [List.length_cons] using by omega
    · split <;> · simp only [List.length_cons]; omega

/-- Position lookup in a `range`-indexed map. -/
theorem getD_range_map {α : Type} [Inhabited α] (n i : Nat) (f : Nat → α) (h : i < n) :
    ((List.range n).map f).getD i default = f i := by
  simp [List.getD_eq_getElem?_getD, List.getElem?_map, List.getElem?_range, h]

/-- A DNS pre-filter that reports `shouldSkip` reported exactly
`(false, true, nil)`. -/
theorem DNSFilter_shouldSkip (ips mx ns : Except Unit Nat)
    (h : (DNSFilter ips mx ns).2.1 = true) : DNSFilter ips mx ns = (false, true, none) := by
  unfold DNSFilter at h ⊢
  split_ifs at h ⊢ <;> simp_all

/-! ## Claims -/

/-- C1, counterexample: the claim says an RDAP HTTP 200 response with an
empty `status` list is classified as taken and never as available; on
the code, a 200 response with an empty status list for the supported TLD
`com` yields `available = true`. -/
theorem C1_rdap_empty_status_counterexample :
    RDAPCheck { Full := "example.com", Name := "example", TLD := "com" }
        (.okBody (some [])) = .ok true ∧
    RDAPCheck { Full := "example.com", Name := "example", TLD := "com" }
        (.okBody (some [])) ≠ .ok false := by
  refine ⟨rfl, fun h => ?_⟩
  have h2 : (Except.ok true : Except RdapError Bool) = .ok false := h
  simp at h2

/-- C1, amended: for a supported TLD, an HTTP 200 response with a
non-empty status list is always classified as taken (in particular when
some status is `active` or `registered`, and also when the list is
inconclusive), while a 200 response with an empty status list is
classified as available. -/
theorem C1_rdap_200_classification (d : Domain) (statuses : List String) (srv : String)
    (hsrv : rdapLookup d.TLD = some srv) :
    (statuses ≠ [] → RDAPCheck d (.okBody (some statuses)) = .ok false) ∧
    (statuses.any (fun st => st == "active" || st == "registered") = true →
      RDAPCheck d (.okBody (some statuses)) = .ok false) ∧
    RDAPCheck d (.okBody (some ([] : List String))) = .ok true := by
  refine ⟨fun hne => ?_, fun hany => ?_, ?_⟩
  · simp only [RDAPCheck, hsrv]
    rw [if_neg (by simpa using hne)]
    split <;> rfl
  · have hne : statuses ≠ [] := by
      intro h0; rw [h0] at hany; simp at hany
    simp only [RDAPCheck, hsrv]
    rw [if_neg (by simpa using hne)]
    split <;> rfl
  · simp [RDAPCheck, hsrv]

/-- C1, witness for the amended theorem at a concrete inconclusive
non-empty status list on the `com` endpoint. -/
theorem C1_rdap_200_classification_witness :
    RDAPCheck { Full := "example.com", Name := "example", TLD := "com" }
        (.okBody (some ["clientTransferProhibited"])) = .ok false :=
  (C1_rdap_200_classification { Full := "example.com", Name := "example", TLD := "com" }
    ["clientTransferProhibited"] ("https://rdap.verisign.com/com/v1/domain/") rfl).1
    (by simp)

/-- C2, code-bug evaluation: the claim (backed by the repository's own
`TestBackwardCompatibility_DomainNormalization` test and its security
documentation) says any input whose trimmed lowercase form begins with
`-` is rejected with `InvalidFormat`; the shipped `Normalize` has no such
check and accepts `"-badactor.com"`. -/
theorem C2_normalize_accepts_leading_hyphen :
    (canon ("-badactor.com")).data.head? = some '-' ∧
    Normalize ("-badactor.com") =
      ({ Full := "-badactor.com", Name := "-badactor", TLD := "com" }, none) :=
  ⟨rfl, rfl⟩

/-- C3, code-bug evaluation: the claim says every successfully returned
`Domain` satisfies the structural invariant; the shipped `Normalize`
accepts `"invalid..domain"` (an input the repository's own handler test
expects to be rejected) and returns a `Domain` whose `Full` contains
consecutive dots, violating the invariant. -/
theorem C3_normalize_violates_invariant :
    Normalize ("invalid..domain") =
      ({ Full := "invalid..domain", Name := "invalid.", TLD := "domain" }, none) ∧
    domainInvariant { Full := "invalid..domain", Name := "invalid.", TLD := "domain" } = false :=
  ⟨rfl, rfl⟩

/-- Normalizing a non-empty dot-free canonical form appends exactly
`.com` and succeeds. -/
theorem normalizeChars_no_dot (t : List Char) (h1 : t ≠ []) (h2 : t.contains '.' = false) :
    normalizeChars t = (⟨⟨t ++ dotCom⟩, ⟨t⟩, ⟨['c', 'o', 'm']⟩⟩, none) := by
  have hmem : '.' ∉ t := by simpa using h2
  have hsplit : splitDot (t ++ dotCom) = [t, ['c', 'o', 'm']] := by
    rw [show t ++ dotCom = t ++ '.' :: ['c', 'o', 'm'] from rfl,
      splitDot_append_dot t ['c', 'o', 'm'] hmem]
    rfl
  have hend : endsWithDot (t ++ dotCom) = false := by
    simp [endsWithDot, dotCom, List.reverse_append]
  have hlast : ([t, ['c', 'o', 'm']] : List (List Char)).getLastD [] = ['c', 'o', 'm'] := rfl
  have hinter : List.intercalate ['.'] ([t] : List (List Char)) = t := by
    simp [List.intercalate]
  simp [normalizeChars, h1, hmem, hend, hsplit, hlast, hinter]

/-- Normalizing a canonical form that already contains a dot never
appends anything: a successful result's `Full` is the canonical form
itself. -/
theorem normalizeChars_with_dot (t : List Char) (h : t.contains '.' = true)
    (d : Domain) (hEq : normalizeChars t = (d, none)) : d.Full = ⟨t⟩ := by
  simp only [normalizeChars, h, if_true] at hEq
  split at hEq
  · simp at hEq
  · split at hEq
    · simp at hEq
    · split at hEq
      · simp at hEq
      · split at hEq
        · simp at hEq
        · split at hEq
          · simp at hEq
          · rw [Prod.mk.injEq] at hEq
            rw [← hEq.1]

/-- C5: the normalizer appends exactly `.com` when and only when the
trimmed, lowercased input contains no dot; an input that already has a
dot keeps its full form (and hence its TLD) verbatim, and in particular
`example.org` stays `example.org`. -/
theorem C5_normalize_com_appending (input : String) :
    ((canon input).data ≠ [] → (canon input).data.contains '.' = false →
      Normalize input =
        ({ Full := canon input ++ ".com", Name := canon input, TLD := "com" }, none)) ∧
    ((canon input).data.contains '.' = true →
      ∀ d : Domain, Normalize input = (d, none) → d.Full = canon input) ∧
    Normalize ("example.org") =
      ({ Full := "example.org", Name := "example", TLD := "org" }, none) := by
  refine ⟨fun h1 h2 => ?_, fun h d hEq => ?_, rfl⟩
  · show normalizeChars (canon input).data = _
    rw [normalizeChars_no_dot (canon input).data h1 h2]
    rfl
  · exact normalizeChars_with_dot (canon input).data h d hEq

/-- C5, witness: a bare name gets `.com` appended, and a `.org` name is
preserved verbatim. -/
theorem C5_normalize_com_appending_witness :
    Normalize ("trucore") = ({ Full := "trucore.com", Name := "trucore", TLD := "com" }, none) ∧
    (Normalize ("example.org")).1.Full = canon ("example.org") := by
  constructor
  · exact ((C5_normalize_com_appending ("trucore")).1 (by decide) (by decide)).trans (by decide)
  · exact (C5_normalize_com_appending ("example.org")).2.1 (by decide) _
      (((C5_normalize_com_appending ("example.org")).2.2).symm ▸ rfl)

/-- C6: whenever the DNS pre-filter reports a definitive record
(`shouldSkip = true`), the resolution engine returns a taken verdict
with source `"dns"`, and the outcome is independent of what RDAP and
WHOIS would have answered (they are not consulted). -/
theorem C6_dns_definitive_short_circuit (d : Domain) (ips mx ns : Except Unit Nat)
    (rdap rdap2 : Except RdapError Bool) (w w2 : Except WhoisError Bool)
    (h : (DNSFilter ips mx ns).2.1 = true) :
    Check d (DNSFilter ips mx ns) rdap w =
      { Domain := d, Status := .taken, Available := false, Error := "", Source := "dns" } ∧
    Check d (DNSFilter ips mx ns) rdap w = Check d (DNSFilter ips mx ns) rdap2 w2 := by
  rw [DNSFilter_shouldSkip ips mx ns h]
  exact ⟨rfl, rfl⟩

/-- C6, witness: a domain with two A records short-circuits to a
taken/dns verdict even though RDAP and WHOIS would both have said
available. -/
theorem C6_dns_definitive_short_circuit_witness :
    Check { Full := "example.com", Name := "example", TLD := "com" }
        (DNSFilter (.ok 2) (.error ()) (.error ())) (.ok true) (.ok true) =
      { Domain := { Full := "example.com", Name := "example", TLD := "com" },
        Status := .taken, Available := false, Error := "", Source := "dns" } :=
  (C6_dns_definitive_short_circuit { Full := "example.com", Name := "example", TLD := "com" }
    (.ok 2) (.error ()) (.error ()) (.ok true) (.ok true) (.ok true) (.ok true) rfl).1

/-- C7, counterexample: the claim says any non-zero exit with output
matching neither keyword set defaults to taken; on the code this only
happens for exit code exactly 1, so exit code 2 with unmatched output
returns the transport error instead.  Moreover a non-zero exit with
empty output returns the timeout error, not the transport error, when
the context deadline is exceeded. -/
theorem C7_whois_exit_code_counterexample :
    (WHOISCheck ("connect: network is unreachable") (some (.exitError 2)) false =
        .error .commandFailed ∧
      WHOISCheck ("connect: network is unreachable") (some (.exitError 2)) false ≠
        .ok false) ∧
    (WHOISCheck ("") (some (.exitError 2)) true = .error .timeout ∧
      WHOISCheck ("") (some (.exitError 2)) true ≠ .error .commandFailed) := by
  refine ⟨⟨rfl, fun h => ?_⟩, ⟨rfl, fun h => ?_⟩⟩
  · have h2 : (Except.error WhoisError.commandFailed : Except WhoisError Bool) = .ok false := h
    simp at h2
  · have h2 : (Except.error WhoisError.timeout : Except WhoisError Bool) =
        .error .commandFailed := h
    simp at h2

/-- C7, amended: for WHOIS output matching neither indicator set, a
non-zero exit with empty output yields the transport-class error
(when the deadline is not exceeded); an exit code of exactly 1 with
non-empty unmatched output defaults to taken with no error; any other
non-zero exit code with unmatched output yields the transport-class
error; and once the context deadline is exceeded every erroring
invocation yields the timeout error instead. -/
theorem C7_whois_nonzero_exit_classification (output : String) (e : CmdErr) (code : Int)
    (hA : availableIndicators.any (fun ind => containsStr output ind) = false)
    (hT : takenIndicators.any (fun ind => containsStr output ind) = false) :
    (output.data = [] → WHOISCheck output (some e) false = .error .commandFailed) ∧
    (output.data ≠ [] → WHOISCheck output (some (.exitError 1)) false = .ok false) ∧
    (code ≠ 1 → WHOISCheck output (some (.exitError code)) false = .error .commandFailed) ∧
    WHOISCheck output (some e) true = .error .timeout := by
  refine ⟨fun h0 => ?_, fun h0 => ?_, fun hc => ?_, ?_⟩
  · cases e with
    | exitError c => simp [WHOISCheck, hA, hT, h0]
    | startFailure => simp [WHOISCheck, hA, hT]
  · simp [WHOISCheck, hA, hT, h0]
  · simp [WHOISCheck, hA, hT, hc]
  · cases e <;> simp [WHOISCheck, hA, hT]

/-- C7, witness for the amended theorem: exit code 1 with unmatched
non-empty output is classified taken with no error. -/
theorem C7_whois_nonzero_exit_classification_witness :
    WHOISCheck ("connect: network is unreachable") (some (.exitError 1)) false = .ok false :=
  (C7_whois_nonzero_exit_classification ("connect: network is unreachable")
    (.exitError 1) 2 (by decide) (by decide)).2.1 (by decide)

/-- C10: whenever the combined WHOIS output contains any
available-indicator keyword, `WHOISCheck` returns available with no
error, regardless of the command error and of the deadline state:
indicator matching precedes all error and timeout classification. -/
theorem C10_whois_available_indicator_first (output : String) (cmdErr : Option CmdErr)
    (deadlineExceeded : Bool)
    (h : availableIndicators.any (fun ind => containsStr output ind) = true) :
    WHOISCheck output cmdErr deadlineExceeded = .ok true := by
  simp [WHOISCheck, h]

/-- C10, witness: an output containing `"No match for domain"` is
classified available even though the command reported exit code 1 and
the deadline was already exceeded. -/
theorem C10_whois_available_indicator_first_witness :
    WHOISCheck ("No match for domain EXAMPLE.COM") (some (.exitError 1)) true = .ok true :=
  C10_whois_available_indicator_first ("No match for domain EXAMPLE.COM")
    (some (.exitError 1)) true (by decide)

/-- C4: a batch of `n` inputs with `0 < n <= 100` yields exactly `n`
verdicts in input order with `checked = n = available + taken + errors`;
an empty batch is rejected with the empty-batch error and a batch of
more than 100 inputs with the too-many-domains error, in both cases
independently of the resolution engine (no domain is probed). -/
theorem C4_batch_shape_and_counts (inputs : List String) (cancelled : Nat → Bool)
    (checkFn checkFn2 : Domain → Result) :
    (inputs.length = 0 → CheckDomainsHandler inputs cancelled checkFn = .error .emptyBatch) ∧
    (inputs.length > 100 →
      CheckDomainsHandler inputs cancelled checkFn = .error .tooManyDomains) ∧
    (inputs.length = 0 ∨ inputs.length > 100 →
      CheckDomainsHandler inputs cancelled checkFn =
        CheckDomainsHandler inputs cancelled checkFn2) ∧
    (0 < inputs.length → inputs.length ≤ 100 →
      (∀ e : BatchError, CheckDomainsHandler inputs cancelled checkFn ≠ .error e) ∧
      ∀ resp : CheckResponse, CheckDomainsHandler inputs cancelled checkFn = .ok resp →
        resp.Results.length = inputs.length ∧
        resp.Checked = inputs.length ∧
        resp.Checked = resp.Available + resp.Taken + resp.Errors ∧
        ∀ i, i < inputs.length →
          resp.Results.getD i default = workUnit (inputs.getD i "") (cancelled i) checkFn) := by
  refine ⟨fun h0 => ?_, fun h100 => ?_, fun hor => ?_, fun hpos hle => ?_⟩
  · simp [CheckDomainsHandler, h0]
  · have hne : inputs.length ≠ 0 := by omega
    simp [CheckDomainsHandler, maxDomainsPerRequest, hne, h100]
  · rcases hor with h | h
    · simp [CheckDomainsHandler, h]
    · have hne : inputs.length ≠ 0 := by omega
      simp [CheckDomainsHandler, maxDomainsPerRequest, hne, h]
  · have hne : inputs.length ≠ 0 := by omega
    have hnle : ¬ inputs.length > maxDomainsPerRequest := by
      simp only [maxDomainsPerRequest]; omega
    constructor
    · intro e h
      simp [CheckDomainsHandler, hne, hnle] at h
    · intro resp hresp
      simp only [CheckDomainsHandler, if_neg hne, if_neg hnle, Except.ok.injEq] at hresp
      subst hresp
      refine ⟨by simp, by simp, (countVerdicts_sum _).symm, fun i hi => ?_⟩
      exact getD_range_map _ i _ hi

/-- C4, witness: the two-input batch `["trucore", ""]` produces two
position-stable verdicts whose counts partition `checked`. -/
theorem C4_batch_shape_and_counts_witness :
    respC4.Results.length = 2 ∧ respC4.Checked = 2 ∧
    respC4.Checked = respC4.Available + respC4.Taken + respC4.Errors ∧
    respC4.Results.getD 0 default = workUnit ("trucore") false dnsTakenFn := by
  have h := ((C4_batch_shape_and_counts [("trucore"), ("")] (fun _ => false) dnsTakenFn
    rdapAvailFn).2.2.2 (by decide) (by decide)).2 respC4 rfl
  exact ⟨h.1, h.2.1, h.2.2.1, h.2.2.2 0 (by decide)⟩

/-- C8: a batch worker that observes context cancellation while waiting
at the semaphore writes, at its own position, an error verdict with the
message `request cancelled`, and the resolution engine is not consulted
for that position (the unit's outcome is independent of the engine). -/
theorem C8_cancelled_at_semaphore (inputs : List String) (cancelled : Nat → Bool)
    (checkFn checkFn2 : Domain → Result) (i : Nat) (resp : CheckResponse)
    (hi : i < inputs.length) (hc : cancelled i = true)
    (hok : CheckDomainsHandler inputs cancelled checkFn = .ok resp) :
    resp.Results.getD i default =
      { Domain := (Normalize (inputs.getD i "")).1, Status := .error, Available := false,
        Error := "request cancelled", Source := "" } ∧
    workUnit (inputs.getD i "") (cancelled i) checkFn =
      workUnit (inputs.getD i "") (cancelled i) checkFn2 := by
  have hne : inputs.length ≠ 0 := by omega
  by_cases hle : inputs.length > maxDomainsPerRequest
  · simp [CheckDomainsHandler, hne, hle] at hok
  · simp only [CheckDomainsHandler, if_neg hne, if_neg hle, Except.ok.injEq] at hok
    subst hok
    constructor
    · rw [getD_range_map _ i _ hi]
      simp [workUnit, hc]
    · simp [workUnit, hc]

/-- C8, witness: cancelling before the only worker acquires a slot
yields the request-cancelled error verdict at position 0, whatever the
engine would have answered. -/
theorem C8_cancelled_at_semaphore_witness :
    respC8.Results.getD 0 default =
      { Domain := { Full := "example.com", Name := "example", TLD := "com" },
        Status := .error, Available := false, Error := "request cancelled", Source := "" } ∧
    workUnit ("example.com") true dnsTakenFn = workUnit ("example.com") true rdapAvailFn := by
  have h := C8_cancelled_at_semaphore [("example.com")] (fun _ => true) dnsTakenFn rdapAvailFn 0
    respC8 (by decide) rfl rfl
  exact ⟨h.1.trans (by decide), h.2⟩

/-- C9: a batch position whose input fails normalization (and whose
worker is not cancelled at the semaphore) emits an error verdict whose
`Domain` carries the raw input as `Full` with empty `Name` and `TLD`,
with message `invalid domain format`; that `Domain` violates the
`DomainIdentifier` structural invariant. -/
theorem C9_invalid_format_verdict (inputs : List String) (cancelled : Nat → Bool)
    (checkFn : Domain → Result) (i : Nat) (resp : CheckResponse)
    (hi : i < inputs.length) (hc : cancelled i = false)
    (hn : (Normalize (inputs.getD i "")).2.isSome = true)
    (hok : CheckDomainsHandler inputs cancelled checkFn = .ok resp) :
    resp.Results.getD i default =
      { Domain := { Full := inputs.getD i "", Name := "", TLD := "" }, Status := .error,
        Available := false, Error := "invalid domain format", Source := "" } ∧
    domainInvariant { Full := inputs.getD i "", Name := "", TLD := "" } = false := by
  have hne : inputs.length ≠ 0 := by omega
  by_cases hle : inputs.length > maxDomainsPerRequest
  · simp [CheckDomainsHandler, hne, hle] at hok
  · simp only [CheckDomainsHandler, if_neg hne, if_neg hle, Except.ok.injEq] at hok
    subst hok
    constructor
    · rw [getD_range_map _ i _ hi, hc]
      simp only [workUnit, Bool.false_eq_true, if_false]
      rw [if_pos hn]
    · simp [domainInvariant]

/-- C9, witness: the malformed input `"example."` yields the raw-input
error verdict at position 0, and its `Domain` breaks the invariant. -/
theorem C9_invalid_format_verdict_witness :
    respC9.Results.getD 0 default =
      { Domain := { Full := "example.", Name := "", TLD := "" }, Status := .error,
        Available := false, Error := "invalid domain format", Source := "" } ∧
    domainInvariant { Full := "example.", Name := "", TLD := "" } = false := by
  have h := C9_invalid_format_verdict [("example.")] (fun _ => false) dnsTakenFn 0 respC9
    (by decide) rfl (by decide) rfl
  exact h

end DomainCheck
